import Mathlib

/-!
Verification of the response segmentation and repair pipeline of the
VSCode_AI_Note extension.

Strings are modelled as `List Char` (the `data` of a JavaScript string; all
operations used by the source — `indexOf`, `substring`, `trim`, `replace` with
the one header regex — are embedded below).  `str` injects Lean string
literals.  JavaScript `\s` (as used by `trim` and the header regex) is
modelled by the ASCII whitespace characters; the source texts only ever use
these.  JavaScript multiline `^` fires at index 0 and right after a line
terminator; the embedding covers the terminators `\n` and `\r` that can occur
in the texts handled by this extension.
-/

def str (s : String) : List Char := s.data

/-- Whitespace class used by JavaScript `trim` and `\s` (ASCII part). -/
def isWS (c : Char) : Bool :=
  c == ' ' || c == '\t' || c == '\n' || c == '\r' || c == '\x0b' || c == '\x0c'

/-- Right half of JavaScript `trim`: remove trailing whitespace. -/
def trimRight (l : List Char) : List Char := (l.reverse.dropWhile isWS).reverse

/-- JavaScript `String.prototype.trim`: strip leading and trailing whitespace. -/
def listTrim (l : List Char) : List Char := trimRight (l.dropWhile isWS)

/-- Index of the first occurrence of `pat` in `s` (JavaScript
`String.prototype.indexOf` with a non-empty pattern). -/
def firstIdx (pat : List Char) : List Char → Option Nat
  | [] => if pat.isPrefixOf ([] : List Char) then some 0 else none
  | c :: t =>
    if pat.isPrefixOf (c :: t) then some 0 else (firstIdx pat t).map (· + 1)

/-- JavaScript `indexOf(pat, start)`: first occurrence at index `≥ start`. -/
def firstIdxFrom (pat s : List Char) (start : Nat) : Option Nat :=
  (firstIdx pat (s.drop start)).map (· + start)

/-- JavaScript `substring(a, b)` for `a ≤ b` within bounds. -/
def jsSubstring (s : List Char) (a b : Nat) : List Char := (s.take b).drop a

namespace AnalysisPostProcessor

/-- `AnalysisPostProcessor.SECTION_START_MARKER` (analysisPostProcessor.ts:14). -/
def SECTION_START_MARKER : List Char := str "---SECTION_START_"

/-- `AnalysisPostProcessor.SECTION_END_MARKER` (analysisPostProcessor.ts:15). -/
def SECTION_END_MARKER : List Char := str "---SECTION_END_"

/-- `AnalysisPostProcessor.MAX_RETRY_ATTEMPTS` (analysisPostProcessor.ts:16). -/
def MAX_RETRY_ATTEMPTS : Nat := 2

/-- The start delimiter for a section (analysisPostProcessor.ts:106). -/
def sectionStartMarker (sectionNumber : Nat) : List Char :=
  SECTION_START_MARKER ++ Nat.toDigits 10 sectionNumber ++ str "---"

/-- The end delimiter for a section (analysisPostProcessor.ts:107). -/
def sectionEndMarker (sectionNumber : Nat) : List Char :=
  SECTION_END_MARKER ++ Nat.toDigits 10 sectionNumber ++ str "---"

/-- Greedy matcher for the header regex
`^\s*#+\s*N\.\s*[^\n]*\n?` (analysisPostProcessor.ts:127-130) at one
candidate position; returns the length of the match.  Every boundary between
consecutive pieces of the pattern is between disjoint character classes or is
followed only by nullable pieces, so the greedy match coincides with the
backtracking JavaScript match. -/
def matchHeaderLen (sectionNumber : Nat) (s : List Char) : Option Nat :=
  let s1 := s.dropWhile isWS
  match s1 with
  | '#' :: _ =>
    let s2 := s1.dropWhile (fun c => c == '#')
    let s3 := s2.dropWhile isWS
    let digits := Nat.toDigits 10 sectionNumber
    if digits.isPrefixOf s3 then
      match s3.drop digits.length with
      | '.' :: s4 =>
        let s5 := s4.dropWhile isWS
        let s6 := s5.dropWhile (fun c => !(c == '\n'))
        let rest := match s6 with
          | '\n' :: r => r
          | r => r
        some (s.length - rest.length)
      | _ => none
    else none
  | _ => none

/-- Scanner for JavaScript `content.replace(headerRegex, "")` with the
multiline flag: walk the text left to right; `atLineStart` records whether
the current position is index 0 or immediately follows a line terminator —
the only positions where the anchored pattern can match.  The first match is
removed; everything else is kept. -/
def stripGo (sectionNumber : Nat) (atLineStart : Bool) : List Char → List Char
  | [] => []
  | c :: t =>
    if atLineStart then
      match matchHeaderLen sectionNumber (c :: t) with
      | some m => (c :: t).drop m
      | none => c :: stripGo sectionNumber (c == '\n' || c == '\r') t
    else c :: stripGo sectionNumber (c == '\n' || c == '\r') t

/-- JavaScript `content.replace(headerRegex, "")` with the multiline flag:
remove the first match of the header pattern, trying index 0 and the position
after each line terminator, left to right (analysisPostProcessor.ts:131). -/
def stripHeaderFrom (sectionNumber : Nat) (s : List Char) : List Char :=
  stripGo sectionNumber true s

/-- Scanner deciding that the header pattern matches at no candidate
position of the text (same traversal as `stripGo`). -/
def noHeaderMatchGo (sectionNumber : Nat) (atLineStart : Bool) : List Char → Bool
  | [] => true
  | c :: t =>
    if atLineStart then
      match matchHeaderLen sectionNumber (c :: t) with
      | some _ => false
      | none => noHeaderMatchGo sectionNumber (c == '\n' || c == '\r') t
    else noHeaderMatchGo sectionNumber (c == '\n' || c == '\r') t

/-- Whether the header pattern matches at no candidate position of `s`. -/
def noHeaderMatch (sectionNumber : Nat) (s : List Char) : Bool :=
  noHeaderMatchGo sectionNumber true s

/-- `AnalysisPostProcessor._extractSectionContent`
(analysisPostProcessor.ts:102-134). -/
def extractSectionContent (rawText : List Char) (sectionNumber : Nat) : List Char :=
  let startMarker := sectionStartMarker sectionNumber
  let endMarker := sectionEndMarker sectionNumber
  match firstIdx startMarker rawText with
  | none => []
  | some startIndex =>
    match firstIdxFrom endMarker rawText (startIndex + startMarker.length) with
    | none => []
    | some endIndex =>
      let content := jsSubstring rawText (startIndex + startMarker.length) endIndex
      let content2 := listTrim (stripHeaderFrom sectionNumber content)
      listTrim content2

/-- `AnalysisPostProcessor._getSectionTemplate`
(analysisPostProcessor.ts:257-276): the fixed heading of each section. -/
def getSectionTemplate (sectionNumber : Nat) : List Char :=
  match sectionNumber with
  | 1 => str "### 1. 전체 분석 및 접근 방식 (Overall Analysis & Approach)"
  | 2 => str "### 2. 코드 구조 및 가독성 (Code Structure & Readability)"
  | 3 => str "### 3. 시간 복잡도 분석 (Time Complexity Analysis)"
  | 4 => str "### 4. 공간 복잡도 분석 (Space Complexity Analysis)"
  | 5 => str "### 5. 잠재적 문제점 및 버그 (Potential Issues & Bugs)"
  | 6 => str "### 6. 개선 제안 (Suggestions for Improvement)"
  | 7 => str "### 7. 대안적 접근 방식 (Alternative Approaches) (선택 사항)"
  | _ => str "### " ++ Nat.toDigits 10 sectionNumber ++ str ". 알 수 없는 섹션"

/-- The fixed placeholder returned when all repair attempts for a section are
exhausted (analysisPostProcessor.ts:206). -/
def missingSectionPlaceholder (sectionNumber : Nat) : List Char :=
  str "**[AI 분석 오류: " ++ Nat.toDigits 10 sectionNumber ++
    str "번 섹션 내용을 생성하지 못함]**\n\n_AI가 이 섹션의 내용을 성공적으로 생성하지 못했습니다. 수동으로 내용을 추가하거나, 다시 시도해 주십시오._"

/-- One repair attempt fails when the collaborator returns no response, an
empty (falsy) response, or a response whose extraction trims to empty
(analysisPostProcessor.ts:176-195). -/
def repairAttemptFails (gen : Nat → Option (List Char)) (sectionNumber k : Nat) : Bool :=
  match gen k with
  | none => true
  | some r => r.isEmpty || (listTrim (extractSectionContent r sectionNumber)).isEmpty

/-- The `while (retryCount < MAX_RETRY_ATTEMPTS)` loop of
`AnalysisPostProcessor._reRequestMissingSection`
(analysisPostProcessor.ts:156-198), with the completion collaborator
abstracted as an oracle `gen` from attempt index to its response
(`generateContent` returns a string or `undefined`).  The loop counts
upward from `retryCount`; the embedding counts the `remaining` attempts
down (`remaining = MAX_RETRY_ATTEMPTS - retryCount`) and records in the
second component how many collaborator calls were made.  The backoff delay
(`setTimeout`, analysisPostProcessor.ts:197) has no effect on the returned
value and is not modelled. -/
def reRequestLoop (gen : Nat → Option (List Char)) (sectionNumber : Nat) :
    Nat → Nat → List Char × Nat
  | 0, _ => (missingSectionPlaceholder sectionNumber, 0)
  | remaining + 1, retryCount =>
    match gen retryCount with
    | some reResponse =>
      if reResponse.isEmpty then
        let p := reRequestLoop gen sectionNumber remaining (retryCount + 1)
        (p.1, p.2 + 1)
      else
        let reExtractedContent := extractSectionContent reResponse sectionNumber
        if (listTrim reExtractedContent).isEmpty then
          let p := reRequestLoop gen sectionNumber remaining (retryCount + 1)
          (p.1, p.2 + 1)
        else
          (reExtractedContent, 1)
    | none =>
      let p := reRequestLoop gen sectionNumber remaining (retryCount + 1)
      (p.1, p.2 + 1)

/-- `AnalysisPostProcessor._reRequestMissingSection`
(analysisPostProcessor.ts:147-207): the loop starts with `retryCount = 0`,
so the full budget `MAX_RETRY_ATTEMPTS` is available.  First component:
the resolved content; second component: how many collaborator calls were
made. -/
def reRequestMissingSection (gen : Nat → Option (List Char)) (sectionNumber : Nat) :
    List Char × Nat :=
  reRequestLoop gen sectionNumber MAX_RETRY_ATTEMPTS 0

/-- The per-section resolution step of
`AnalysisPostProcessor.processAnalysisResult`
(analysisPostProcessor.ts:48-66): extract the section; if the extraction
trims to empty (falsy check on line 50), re-request it; store the trimmed
result.  `gen i` is the collaborator oracle for the repair attempts of
section `i` — each section runs its own loop from attempt 0. -/
def resolvedSectionContent (gen : Nat → Nat → Option (List Char))
    (rawAiResponse : List Char) (i : Nat) : List Char :=
  let sectionContent := extractSectionContent rawAiResponse i
  let sectionContent2 :=
    if (listTrim sectionContent).isEmpty then
      (reRequestMissingSection (gen i) i).1
    else sectionContent
  listTrim sectionContent2

/-- Number of collaborator calls made on behalf of section `i` during one
run of `processAnalysisResult` (zero when the initial extraction already
succeeds). -/
def sectionRepairCalls (gen : Nat → Nat → Option (List Char))
    (rawAiResponse : List Char) (i : Nat) : Nat :=
  if (listTrim (extractSectionContent rawAiResponse i)).isEmpty then
    (reRequestMissingSection (gen i) i).2
  else 0

/-- The metadata record frozen before assembly
(analysisPostProcessor.ts:76-82). -/
structure Metadata where
  platform : List Char
  problemId : List Char
  title : List Char
  language : List Char
  analyzedAt : List Char
deriving DecidableEq

/-- Construction of the effective metadata from caller input
(analysisPostProcessor.ts:69-82).  `analyzedAt` is produced by
`new Date()` in the source; the embedding takes it as an input. -/
def effectiveMetadata (platform problemId title language analyzedAt : List Char) :
    Metadata :=
  { platform := if platform = str "Unknown" then str "Unknown Platform" else platform
    problemId := if problemId = str "Unknown" then str "Unknown ID" else problemId
    title := if title = str "Unknown" then str "Untitled Problem" else title
    language := language
    analyzedAt := analyzedAt }

/-- The YAML front matter block (analysisPostProcessor.ts:294-301). -/
def yamlFrontMatter (m : Metadata) : List Char :=
  str "---\nplatform: " ++ m.platform ++ str "\nproblemId: " ++ m.problemId ++
    str "\ntitle: " ++ m.title ++ str "\nlanguage: " ++ m.language ++
    str "\nanalyzedAt: " ++ m.analyzedAt ++ str "\n---\n"

/-- The generated main heading line (analysisPostProcessor.ts:303). -/
def mainHeading (m : Metadata) : List Char :=
  str "## " ++ m.platform ++ str " " ++ m.problemId ++ str " " ++ m.language ++
    str " 코드 분석"

/-- The generated introductory sentence (analysisPostProcessor.ts:304-308):
the problem id segment is included only when the id differs from the
sentinel, and likewise for the title segment. -/
def initialSentence (m : Metadata) : List Char :=
  m.platform ++
    (if m.problemId ≠ str "Unknown ID" then str " " ++ m.problemId else []) ++
    (if m.title ≠ str "Untitled Problem" then str " (" ++ m.title ++ str ")" else []) ++
    str " " ++ m.language ++ str " 코드는 다음과 같습니다."

/-- Per-section content lookup with the falsy fallback of
analysisPostProcessor.ts:314-315 (`sectionsContent[i] || fallback`; both a
missing key and the empty string are falsy). -/
def lookupOrFallback (sectionsContent : Nat → Option (List Char)) (i : Nat) :
    List Char :=
  match sectionsContent i with
  | some c => if c.isEmpty then str "_이 섹션의 내용을 생성하지 못했습니다._" else c
  | none => str "_이 섹션의 내용을 생성하지 못했습니다._"

/-- `AnalysisPostProcessor._generateMarkdownTemplate`
(analysisPostProcessor.ts:284-320): front matter, heading, introductory
sentence, then the loop `for (let i = 1; i <= 7; i++)` appending each fixed
heading and resolved content; the whole result is trimmed. -/
def generateMarkdownTemplate (m : Metadata)
    (sectionsContent : Nat → Option (List Char)) : List Char :=
  let intro := yamlFrontMatter m ++ str "\n" ++ mainHeading m ++ str "\n\n" ++
    initialSentence m ++ str "\n\n"
  listTrim ((List.range' 1 7).foldl
    (fun acc i =>
      acc ++ getSectionTemplate i ++ str "\n" ++ lookupOrFallback sectionsContent i ++
        str "\n\n")
    intro)

/-- The section map built by `processAnalysisResult`
(analysisPostProcessor.ts:45-66): keys 1..7 hold the trimmed resolved
contents. -/
def pipelineSections (gen : Nat → Nat → Option (List Char))
    (rawAiResponse : List Char) : Nat → Option (List Char) :=
  fun i =>
    if 1 ≤ i ∧ i ≤ 7 then some (resolvedSectionContent gen rawAiResponse i) else none

/-- `AnalysisPostProcessor.processAnalysisResult`
(analysisPostProcessor.ts:32-94): resolve all seven sections, freeze the
metadata, and assemble the final markdown. -/
def processAnalysisResult (gen : Nat → Nat → Option (List Char))
    (rawAiResponse : List Char)
    (language platform problemId title analyzedAt : List Char) : List Char :=
  generateMarkdownTemplate
    (effectiveMetadata platform problemId title language analyzedAt)
    (pipelineSections gen rawAiResponse)

end AnalysisPostProcessor

namespace AnalyzeCodeCommand

/-- The success path of `AnalyzeCodeCommand.run`
(analyzeCode.ts:110-144): the text returned by
`geminiApiClient.generateContent` is passed to
`FileSystemManager.writeFile` unchanged (`if (analysisResult)` is the JS
truthiness check, so `undefined` and the empty string skip persistence).
No other transformation is applied between the completion response and the
persisted document. -/
def persistedAnalysisText (analysisResult : Option (List Char)) :
    Option (List Char) :=
  match analysisResult with
  | some r => if r.isEmpty then none else some r
  | none => none

end AnalyzeCodeCommand

namespace GeminiApiClient

/-- The response object of the model call, as far as
`GeminiApiClient.generateContent` inspects it: the text content if any
(`none` models a missing/blocked text, i.e. the `!response || !response.text`
branch of geminiApiClient.ts part_005 lines 119-160 and a throwing
`response.text()` in part_004 line 109, which the surrounding `try` catches). -/
structure GenResponse where
  text : Option (List Char)

/-- Outcome of the underlying `model.generateContent` call: it either throws
(any JavaScript error, carrying its message) or returns a response object
(possibly absent). -/
inductive ApiOutcome where
  | throws (message : List Char)
  | returns (response : Option GenResponse)

/-- `GeminiApiClient.generateContent` (part_005 lines 60-214; part_004 lines
59-134 has the same interface behavior): `none` when the client was never
set up (`!this.genAI`), when the call throws (every branch of the `catch`
classifies the message for user-facing text only and returns `undefined`),
and when the response carries no text; otherwise the response text.  The
notification and logging collaborators do not affect the returned value. -/
def generateContent (genAIReady : Bool) (outcome : ApiOutcome) :
    Option (List Char) :=
  if !genAIReady then none
  else
    match outcome with
    | .throws _ => none
    | .returns none => none
    | .returns (some response) =>
      match response.text with
      | none => none
      | some t => some t

end GeminiApiClient

open AnalysisPostProcessor

/-! Helper lemmas about the string primitives. -/

theorem dropWhile_idem (p : Char → Bool) (l : List Char) :
    (l.dropWhile p).dropWhile p = l.dropWhile p := by
  induction l with
  | nil => rfl
  | cons c t ih =>
    by_cases h : p c
    · simp [List.dropWhile_cons, h, ih]
    · simp [List.dropWhile_cons, h]

theorem dropWhile_head_false (p : Char → Bool) (l : List Char) (c : Char) (t : List Char)
    (h : l.dropWhile p = c :: t) : p c = false := by
  have hd := List.head?_dropWhile_not p l
  rw [h] at hd
  simpa using hd

theorem foldl_append_eq_flatten (l : List Nat) (init : List Char) (f : Nat → List Char) :
    l.foldl (fun acc i => acc ++ f i) init = init ++ (l.map f).flatten := by
  induction l generalizing init with
  | nil => simp
  | cons a t ih => simp [List.foldl_cons, ih, List.append_assoc]

/-- Claim C6: for every metadata record and section map, the assembled
document is the trim of the preamble followed by exactly the seven blocks
`heading i ++ newline ++ content i ++ blank line` for `i = 1, …, 7`, in
ascending index order — never reordered, never omitted, each with its fixed
hard-coded heading string (`getSectionTemplate i`). -/
theorem assembled_document_seven_sections (m : Metadata)
    (sc : Nat → Option (List Char)) :
    generateMarkdownTemplate m sc =
      listTrim ((yamlFrontMatter m ++ str "\n" ++ mainHeading m ++ str "\n\n" ++
          initialSentence m ++ str "\n\n") ++
        ((List.range' 1 7).map
          (fun i => getSectionTemplate i ++ str "\n" ++ lookupOrFallback sc i ++
            str "\n\n")).flatten)
    ∧ ((List.range' 1 7).map
        (fun i => getSectionTemplate i ++ str "\n" ++ lookupOrFallback sc i ++
          str "\n\n")).length = 7
    ∧ List.range' 1 7 = [1, 2, 3, 4, 5, 6, 7] := by
  refine ⟨?_, by simp, by decide⟩
  rw [generateMarkdownTemplate]
  have h := foldl_append_eq_flatten (List.range' 1 7)
    (yamlFrontMatter m ++ str "\n" ++ mainHeading m ++ str "\n\n" ++
      initialSentence m ++ str "\n\n")
    (fun i => getSectionTemplate i ++ str "\n" ++ lookupOrFallback sc i ++ str "\n\n")
  simp only [List.append_assoc] at h ⊢
  rw [h]

/-- Claim C7: the document assembler is a pure function of the metadata
record and the resolved section map — two runs on identical inputs produce
byte-for-byte identical documents.  The embedding of
`_generateMarkdownTemplate` reads nothing but its two arguments and the
class constants, so determinism is congruence. -/
theorem assembler_deterministic (m₁ m₂ : Metadata)
    (sc₁ sc₂ : Nat → Option (List Char)) (hm : m₁ = m₂) (hsc : ∀ i, sc₁ i = sc₂ i) :
    generateMarkdownTemplate m₁ sc₁ = generateMarkdownTemplate m₂ sc₂ := by
  subst hm
  have hfun : sc₁ = sc₂ := funext hsc
  rw [hfun]

theorem assembler_deterministic_witness :
    generateMarkdownTemplate
      ⟨str "BOJ", str "1000", str "A+B", str "py", str "2026-10-11"⟩
      (fun i => if i = 3 then some (str "x") else none) =
    generateMarkdownTemplate
      ⟨str "BOJ", str "1000", str "A+B", str "py", str "2026-10-11"⟩
      (fun i => if i = 3 then some ('x' :: []) else none) :=
  assembler_deterministic _ _ _ _ rfl (fun i => by
    by_cases h : i = 3
    · simp only [h, if_pos]
      rfl
    · simp [h])

/-- Claim C4: extraction is total (the embedding is a Lean function, and no
operation of the source — `indexOf`, `substring`, `replace`, `trim` — can
throw), and whenever the start marker is absent, or the end marker is
absent after the start marker, it returns the empty string. -/
theorem extraction_missing_markers_empty (raw : List Char) (n : Nat) :
    (firstIdx (sectionStartMarker n) raw = none → extractSectionContent raw n = [])
    ∧ (∀ i, firstIdx (sectionStartMarker n) raw = some i →
        firstIdxFrom (sectionEndMarker n) raw (i + (sectionStartMarker n).length) = none →
        extractSectionContent raw n = []) := by
  constructor
  · intro h
    simp [extractSectionContent, h]
  · intro i h1 h2
    simp [extractSectionContent, h1, h2]

theorem extraction_missing_markers_empty_witness :
    extractSectionContent (str "no markers here") 1 = [] :=
  (extraction_missing_markers_empty (str "no markers here") 1).1 (by decide)

set_option maxRecDepth 100000 in
/-- Claim C1, counterexample: on the raw completion text `"hello"`, the
analyze-code command persists exactly `"hello"`, while the Segmentation &
Repair Engine output on the same raw text differs from it — so the persisted
document is the raw completion text, not the engine output.
`AnalyzeCodeCommand.run` never invokes `AnalysisPostProcessor`. -/
theorem persisted_text_is_not_postprocessed_cex :
    AnalyzeCodeCommand.persistedAnalysisText (some (str "hello")) = some (str "hello")
    ∧ str "hello" ≠
        processAnalysisResult (fun _ _ => none) (str "hello") (str "python")
          (str "Unknown") (str "Unknown") (str "Unknown") (str "2026-10-11") := by
  exact ⟨rfl, by decide⟩

/-- Claim C1, amended: for every analyze-code run in which the completion
collaborator returns non-empty raw text, the document text the caller
persists is that raw completion text itself, unchanged; the Segmentation &
Repair Engine (`AnalysisPostProcessor`) exists in the repository but is
never invoked by the analyze-code flow. -/
theorem persisted_text_is_raw_completion (raw : List Char) (h : raw ≠ []) :
    AnalyzeCodeCommand.persistedAnalysisText (some raw) = some raw := by
  cases raw with
  | nil => exact absurd rfl h
  | cons c t => rfl

theorem persisted_text_is_raw_completion_witness :
    AnalyzeCodeCommand.persistedAnalysisText (some (str "hi")) = some (str "hi") :=
  persisted_text_is_raw_completion (str "hi") (by decide)

set_option maxRecDepth 100000 in
/-- Claim C8, counterexample: with all three inputs left at the sentinel
default `"Unknown"`, the introductory sentence of the assembled document
does not contain `"Unknown ID"` nor `"Untitled Problem"` (those segments
are omitted by the conditionals of analysisPostProcessor.ts:304-308), even
though the metadata record resolves to those sentinels; and a supplied
empty-string platform (which differs from `"Unknown"`) is passed through,
so the platform metadata field renders as the empty string. -/
theorem metadata_sentinels_cex :
    (firstIdx (str "Unknown ID")
        (initialSentence (effectiveMetadata (str "Unknown") (str "Unknown")
          (str "Unknown") (str "python") (str "2026-10-11"))) = none)
    ∧ (firstIdx (str "Untitled Problem")
        (initialSentence (effectiveMetadata (str "Unknown") (str "Unknown")
          (str "Unknown") (str "python") (str "2026-10-11"))) = none)
    ∧ (effectiveMetadata (str "Unknown") (str "Unknown") (str "Unknown")
        (str "python") (str "2026-10-11")).problemId = str "Unknown ID"
    ∧ (effectiveMetadata (str "Unknown") (str "Unknown") (str "Unknown")
        (str "python") (str "2026-10-11")).title = str "Untitled Problem"
    ∧ (effectiveMetadata (str "") (str "Unknown") (str "Unknown") (str "python")
        (str "2026-10-11")).platform = [] := by
  refine ⟨by decide, by decide, by decide, by decide, by decide⟩

/-- Claim C8, amended: when platform, problem id and title are all the
unsupplied sentinel `"Unknown"`, the metadata block uses exactly the
sentinel strings `"Unknown Platform"`, `"Unknown ID"` and
`"Untitled Problem"`; the introductory sentence uses `"Unknown Platform"`
and omits the problem-id and title segments entirely; and fields derived
from absent inputs resolve to their sentinels rather than to empty strings
— but an input that differs from `"Unknown"` (even the empty string) is
passed through unchanged. -/
theorem metadata_sentinels_amended (language analyzedAt : List Char) :
    (effectiveMetadata (str "Unknown") (str "Unknown") (str "Unknown")
      language analyzedAt).platform = str "Unknown Platform"
    ∧ (effectiveMetadata (str "Unknown") (str "Unknown") (str "Unknown")
        language analyzedAt).problemId = str "Unknown ID"
    ∧ (effectiveMetadata (str "Unknown") (str "Unknown") (str "Unknown")
        language analyzedAt).title = str "Untitled Problem"
    ∧ initialSentence (effectiveMetadata (str "Unknown") (str "Unknown")
        (str "Unknown") language analyzedAt) =
      str "Unknown Platform" ++ str " " ++ language ++ str " 코드는 다음과 같습니다."
    ∧ yamlFrontMatter (effectiveMetadata (str "Unknown") (str "Unknown")
        (str "Unknown") language analyzedAt) =
      str "---\nplatform: " ++ str "Unknown Platform" ++ str "\nproblemId: " ++
        str "Unknown ID" ++ str "\ntitle: " ++ str "Untitled Problem" ++
        str "\nlanguage: " ++ language ++ str "\nanalyzedAt: " ++ analyzedAt ++
        str "\n---\n"
    ∧ (∀ p : List Char, p ≠ str "Unknown" →
        (effectiveMetadata p (str "Unknown") (str "Unknown") language
          analyzedAt).platform = p) := by
  have hm : effectiveMetadata (str "Unknown") (str "Unknown") (str "Unknown")
      language analyzedAt =
      ⟨str "Unknown Platform", str "Unknown ID", str "Untitled Problem",
        language, analyzedAt⟩ := by rfl
  refine ⟨by rw [hm], by rw [hm], by rw [hm], ?_, by rw [hm]; rfl, ?_⟩
  · rw [hm]
    simp [initialSentence, List.append_assoc]
  · intro p hp
    simp [effectiveMetadata, hp]

theorem metadata_sentinels_amended_witness :
    initialSentence (effectiveMetadata (str "Unknown") (str "Unknown")
        (str "Unknown") (str "python") (str "2026-10-11")) =
      str "Unknown Platform" ++ str " " ++ str "python" ++
        str " 코드는 다음과 같습니다."
    ∧ (effectiveMetadata (str "BOJ") (str "Unknown") (str "Unknown")
        (str "python") (str "2026-10-11")).platform = str "BOJ" :=
  ⟨(metadata_sentinels_amended (str "python") (str "2026-10-11")).2.2.2.1,
   (metadata_sentinels_amended (str "python") (str "2026-10-11")).2.2.2.2.2
     (str "BOJ") (by decide)⟩

/-- Claim C10: `GeminiApiClient.generateContent` never propagates a failure
to its caller: for every client state and call outcome it returns either
the response text or `undefined` (`none`), and `none` is returned on every
failure path — client not set up, API call throws, or the API returns no
response or a response without text content.  Totality of the embedding
mirrors the source: the whole body after the guard sits in a
`try`/`catch` whose every branch returns a value. -/
theorem generateContent_returns_option (ready : Bool)
    (outcome : GeminiApiClient.ApiOutcome) :
    (ready = false → GeminiApiClient.generateContent ready outcome = none)
    ∧ (∀ msg, outcome = .throws msg →
        GeminiApiClient.generateContent ready outcome = none)
    ∧ (outcome = .returns none →
        GeminiApiClient.generateContent ready outcome = none)
    ∧ (∀ r, outcome = .returns (some r) → r.text = none →
        GeminiApiClient.generateContent ready outcome = none)
    ∧ (∀ r t, ready = true → outcome = .returns (some r) → r.text = some t →
        GeminiApiClient.generateContent ready outcome = some t) := by
  refine ⟨?_, ?_, ?_, ?_, ?_⟩
  · intro h
    simp [GeminiApiClient.generateContent, h]
  · intro msg h
    cases ready <;> simp [GeminiApiClient.generateContent, h]
  · intro h
    cases ready <;> simp [GeminiApiClient.generateContent, h]
  · intro r h ht
    cases ready <;> simp [GeminiApiClient.generateContent, h, ht]
  · intro r t hready h ht
    simp [GeminiApiClient.generateContent, hready, h, ht]

theorem generateContent_returns_option_witness :
    GeminiApiClient.generateContent true
        (.returns (some ⟨some (str "ok")⟩)) = some (str "ok")
    ∧ GeminiApiClient.generateContent true (.throws (str "quota exceeded")) = none :=
  ⟨(generateContent_returns_option true (.returns (some ⟨some (str "ok")⟩))).2.2.2.2
      ⟨some (str "ok")⟩ (str "ok") rfl rfl rfl,
   (generateContent_returns_option true (.throws (str "quota exceeded"))).2.1
      (str "quota exceeded") rfl⟩

/-! Lemmas about `listTrim` and the repair loop. -/

theorem dropWhile_eq_self_of_headq (p : Char → Bool) (l : List Char)
    (h : ∀ c, l.head? = some c → p c = false) : l.dropWhile p = l := by
  cases l with
  | nil => rfl
  | cons c t => simp [List.dropWhile_cons, h c rfl]

theorem listTrim_eq_self (l : List Char)
    (h1 : ∀ c, l.head? = some c → isWS c = false)
    (h2 : ∀ c, l.getLast? = some c → isWS c = false) : listTrim l = l := by
  have e1 : l.dropWhile isWS = l := dropWhile_eq_self_of_headq _ _ h1
  have e2 : l.reverse.dropWhile isWS = l.reverse :=
    dropWhile_eq_self_of_headq _ _ (fun c hc => h2 c (by rwa [List.head?_reverse] at hc))
  rw [listTrim, trimRight, e1, e2, List.reverse_reverse]

theorem listTrim_idem (l : List Char) : listTrim (listTrim l) = listTrim l := by
  have hW : (listTrim l).dropWhile isWS = listTrim l := by
    apply dropWhile_eq_self_of_headq
    intro c hc
    rw [listTrim, trimRight, List.head?_reverse] at hc
    have hsuf : (l.dropWhile isWS).reverse.dropWhile isWS <:+ (l.dropWhile isWS).reverse :=
      List.dropWhile_suffix _
    rcases hsuf with ⟨s, hs⟩
    have hlast : (l.dropWhile isWS).head? = some c := by
      rw [← List.getLast?_reverse, ← hs, List.getLast?_append, hc]
      rfl
    rcases hx : l.dropWhile isWS with _ | ⟨x, xs⟩
    · rw [hx] at hlast
      simp at hlast
    · rw [hx] at hlast
      simp at hlast
      have hxf := dropWhile_head_false isWS l x xs hx
      rwa [hlast] at hxf
  rw [listTrim, hW, trimRight]
  conv_lhs => rw [listTrim, trimRight, List.reverse_reverse, dropWhile_idem]
  rfl

theorem missingSectionPlaceholder_ne_nil (n : Nat) :
    missingSectionPlaceholder n ≠ [] := by
  simp [missingSectionPlaceholder, str]

theorem listTrim_missingSectionPlaceholder (n : Nat) :
    listTrim (missingSectionPlaceholder n) = missingSectionPlaceholder n := by
  apply listTrim_eq_self
  · intro c hc
    rw [missingSectionPlaceholder] at hc
    rw [List.append_assoc, List.head?_append] at hc
    have hh : (str "**[AI 분석 오류: ").head? = some '*' := rfl
    rw [hh] at hc
    simp at hc
    rw [← hc]
    rfl
  · intro c hc
    rw [missingSectionPlaceholder, List.getLast?_append] at hc
    have hh : (str "번 섹션 내용을 생성하지 못함]**\n\n_AI가 이 섹션의 내용을 성공적으로 생성하지 못했습니다. 수동으로 내용을 추가하거나, 다시 시도해 주십시오._").getLast? = some '_' := by decide
    rw [hh] at hc
    simp at hc
    rw [← hc]
    rfl

theorem reRequestLoop_calls_le (gen : Nat → Option (List Char)) (n : Nat) :
    ∀ remaining k, (reRequestLoop gen n remaining k).2 ≤ remaining := by
  intro remaining
  induction remaining with
  | zero => intro k; simp [reRequestLoop]
  | succ m ih =>
    intro k
    rw [reRequestLoop]
    cases gen k with
    | none => simpa using ih (k + 1)
    | some r =>
      by_cases hr : r.isEmpty
      · simp only [hr]
        simpa using ih (k + 1)
      · simp only [Bool.not_eq_true] at hr
        simp only [hr]
        by_cases he : (listTrim (extractSectionContent r n)).isEmpty
        · simp only [he]
          simpa using ih (k + 1)
        · simp only [Bool.not_eq_true] at he
          simp [he]

theorem reRequestLoop_all_fail (gen : Nat → Option (List Char)) (n : Nat) :
    ∀ remaining k, (∀ j, j < remaining → repairAttemptFails gen n (k + j) = true) →
      reRequestLoop gen n remaining k = (missingSectionPlaceholder n, remaining) := by
  intro remaining
  induction remaining with
  | zero => intro k _; rfl
  | succ m ih =>
    intro k h
    have h0 := h 0 (Nat.succ_pos m)
    rw [show k + 0 = k by omega] at h0
    have hrec := ih (k + 1) (fun j hj => by
      have hj1 := h (j + 1) (by omega)
      rwa [show k + (j + 1) = k + 1 + j by omega] at hj1)
    rw [reRequestLoop]
    cases hg : gen k with
    | none => simp [hrec]
    | some r =>
      simp only [repairAttemptFails, hg] at h0
      by_cases hr : r.isEmpty
      · simp [hr, hrec]
      · simp only [Bool.not_eq_true] at hr
        rw [hr] at h0
        simp only [Bool.false_or] at h0
        simp [hr, h0, hrec]

theorem reRequestLoop_trim_ne_nil (gen : Nat → Option (List Char)) (n : Nat) :
    ∀ remaining k, listTrim (reRequestLoop gen n remaining k).1 ≠ [] := by
  intro remaining
  induction remaining with
  | zero =>
    intro k
    rw [reRequestLoop]
    simp only
    rw [listTrim_missingSectionPlaceholder]
    exact missingSectionPlaceholder_ne_nil n
  | succ m ih =>
    intro k
    rw [reRequestLoop]
    cases gen k with
    | none => simpa using ih (k + 1)
    | some r =>
      by_cases hr : r.isEmpty
      · simp only [hr]
        simpa using ih (k + 1)
      · simp only [Bool.not_eq_true] at hr
        simp only [hr]
        by_cases he : (listTrim (extractSectionContent r n)).isEmpty
        · simp only [he]
          simpa using ih (k + 1)
        · simp only [Bool.not_eq_true] at he
          simp only [he]
          simpa using he

/-- Claim C5: for every section whose content is missing, the repair loop
terminates (it is a total function of the collaborator oracle) and makes at
most `MAX_RETRY_ATTEMPTS` (2) collaborator calls before resolving; when
every attempt fails it resolves to the fixed placeholder after exactly
`MAX_RETRY_ATTEMPTS` calls.  The retry counter is reset for every section:
`resolvedSectionContent` invokes `reRequestMissingSection`, which starts its
loop at `retryCount = 0` with the full budget, independently for each
section index `i`. -/
theorem repair_loop_call_bound (gen : Nat → Nat → Option (List Char))
    (raw : List Char) (i : Nat) :
    sectionRepairCalls gen raw i ≤ MAX_RETRY_ATTEMPTS
    ∧ (reRequestMissingSection (gen i) i).2 ≤ MAX_RETRY_ATTEMPTS
    ∧ ((∀ k, k < MAX_RETRY_ATTEMPTS → repairAttemptFails (gen i) i k = true) →
        reRequestMissingSection (gen i) i =
          (missingSectionPlaceholder i, MAX_RETRY_ATTEMPTS)) := by
  have hle : (reRequestMissingSection (gen i) i).2 ≤ MAX_RETRY_ATTEMPTS :=
    reRequestLoop_calls_le (gen i) i MAX_RETRY_ATTEMPTS 0
  refine ⟨?_, hle, ?_⟩
  · rw [sectionRepairCalls]
    by_cases h : (listTrim (extractSectionContent raw i)).isEmpty
    · simpa [h] using hle
    · simp [h]
  · intro hfail
    exact reRequestLoop_all_fail (gen i) i MAX_RETRY_ATTEMPTS 0
      (fun j hj => by simpa using hfail j hj)

theorem repair_loop_call_bound_witness :
    sectionRepairCalls (fun _ _ => none) [] 4 ≤ MAX_RETRY_ATTEMPTS
    ∧ reRequestMissingSection (fun _ => none) 4 =
        (missingSectionPlaceholder 4, MAX_RETRY_ATTEMPTS) :=
  ⟨(repair_loop_call_bound (fun _ _ => none) [] 4).1,
   (repair_loop_call_bound (fun _ _ => none) [] 4).2.2
     (fun k _ => by rfl)⟩

/-- Claim C9: every value stored in the section map produced by
`processAnalysisResult` is a non-empty string with no leading or trailing
whitespace (it is either genuine extracted or repaired text, or the fixed
placeholder, always stored through `trim`), so the per-section empty-content
fallback of the assembler (`sectionsContent[i] || placeholder text`,
analysisPostProcessor.ts:314-315) is never taken for maps produced by this
pipeline. -/
theorem resolved_sections_nonempty_trimmed (gen : Nat → Nat → Option (List Char))
    (raw : List Char) (i : Nat) (h1 : 1 ≤ i) (h2 : i ≤ 7) :
    resolvedSectionContent gen raw i ≠ []
    ∧ listTrim (resolvedSectionContent gen raw i) = resolvedSectionContent gen raw i
    ∧ lookupOrFallback (pipelineSections gen raw) i = resolvedSectionContent gen raw i := by
  have hne : resolvedSectionContent gen raw i ≠ [] := by
    rw [resolvedSectionContent]
    by_cases h : (listTrim (extractSectionContent raw i)).isEmpty
    · simp only [h, if_true]
      exact reRequestLoop_trim_ne_nil (gen i) i MAX_RETRY_ATTEMPTS 0
    · simp only [h, if_false]
      simpa using h
  have htrim : listTrim (resolvedSectionContent gen raw i) =
      resolvedSectionContent gen raw i := by
    rw [resolvedSectionContent]
    by_cases h : (listTrim (extractSectionContent raw i)).isEmpty
    · simp only [h, if_true]
      exact listTrim_idem _
    · simp only [h, if_false]
      exact listTrim_idem _
  refine ⟨hne, htrim, ?_⟩
  rw [lookupOrFallback, pipelineSections]
  simp only [h1, h2, and_self, if_true]
  have : (resolvedSectionContent gen raw i).isEmpty = false := by
    simpa using hne
  simp [this]

theorem resolved_sections_nonempty_trimmed_witness :
    resolvedSectionContent (fun _ _ => none) [] 1 ≠ []
    ∧ lookupOrFallback (pipelineSections (fun _ _ => none) []) 1 =
        resolvedSectionContent (fun _ _ => none) [] 1 :=
  ⟨(resolved_sections_nonempty_trimmed (fun _ _ => none) [] 1 (by decide) (by decide)).1,
   (resolved_sections_nonempty_trimmed (fun _ _ => none) [] 1 (by decide) (by decide)).2.2⟩

/-! Lemmas about `firstIdx`: a found occurrence is a real occurrence, and the
first occurrence inside a prefix of the text is unaffected by whatever
follows. -/

theorem firstIdx_isPrefixOf (pat : List Char) :
    ∀ (s : List Char) (i : Nat), firstIdx pat s = some i →
      pat.isPrefixOf (s.drop i) = true := by
  intro s
  induction s with
  | nil =>
    intro i h
    rw [firstIdx] at h
    by_cases hp : pat.isPrefixOf ([] : List Char)
    · rw [if_pos hp] at h
      cases h
      simpa using hp
    · rw [if_neg hp] at h
      cases h
  | cons c t ih =>
    intro i h
    rw [firstIdx] at h
    by_cases hp : pat.isPrefixOf (c :: t)
    · rw [if_pos hp] at h
      cases h
      simpa using hp
    · rw [if_neg hp] at h
      rcases Option.map_eq_some'.mp h with ⟨i0, hi0, hplus⟩
      subst hplus
      simpa using ih i0 hi0

theorem firstIdx_length_le (pat : List Char) :
    ∀ (s : List Char) (i : Nat), firstIdx pat s = some i → pat ≠ [] →
      i + pat.length ≤ s.length := by
  intro s i h hne
  have hpre := firstIdx_isPrefixOf pat s i h
  rw [List.isPrefixOf_iff_prefix] at hpre
  have hlen := hpre.length_le
  rw [List.length_drop] at hlen
  rcases pat with _ | ⟨a, as⟩
  · exact absurd rfl hne
  · by_cases hi : i ≤ s.length
    · omega
    · exfalso
      have : s.drop i = [] := List.drop_of_length_le (by omega)
      rw [this] at hpre
      have := hpre.length_le
      simp at this

theorem firstIdx_append (pat : List Char) (hne : pat ≠ []) :
    ∀ (D : List Char) (C : List Char) (i : Nat), firstIdx pat D = some i →
      firstIdx pat (D ++ C) = some i := by
  intro D
  induction D with
  | nil =>
    intro C i h
    rcases pat with _ | ⟨a, as⟩
    · exact absurd rfl hne
    · rw [firstIdx] at h
      simp [List.isPrefixOf] at h
  | cons c t ih =>
    intro C i h
    rw [firstIdx] at h
    rw [List.cons_append, firstIdx]
    by_cases hp : pat.isPrefixOf (c :: t)
    · rw [if_pos hp] at h
      have hp2 : pat.isPrefixOf (c :: (t ++ C)) = true := by
        rw [List.isPrefixOf_iff_prefix] at hp ⊢
        rw [← List.cons_append]
        exact hp.trans (List.prefix_append _ _)
      rw [if_pos hp2]
      exact h
    · rw [if_neg hp] at h
      rcases Option.map_eq_some'.mp h with ⟨i0, hi0, hplus⟩
      have hlen : i0 + pat.length ≤ t.length :=
        firstIdx_length_le pat t i0 hi0 hne
      have hp2 : ¬ pat.isPrefixOf (c :: (t ++ C)) = true := by
        intro hcontra
        apply hp
        rw [List.isPrefixOf_iff_prefix] at hcontra ⊢
        rw [List.prefix_iff_eq_take] at hcontra ⊢
        rcases pat with _ | ⟨a, as⟩
        · exact absurd rfl hne
        · simp only [List.length_cons] at hlen
          have hlen2 : as.length ≤ t.length := by omega
          rw [List.length_cons, List.take_succ_cons,
            List.take_append_of_le_length hlen2] at hcontra
          rw [List.length_cons, List.take_succ_cons]
          exact hcontra
      rw [if_neg (by simpa using hp2)]
      rw [ih C i0 hi0]
      simpa using hplus

theorem firstIdxFrom_append (pat : List Char) (hne : pat ≠ [])
    (D C : List Char) (k j : Nat) (hk : k ≤ D.length)
    (h : firstIdxFrom pat D k = some j) : firstIdxFrom pat (D ++ C) k = some j := by
  rw [firstIdxFrom] at h ⊢
  rcases Option.map_eq_some'.mp h with ⟨j0, hj0, hplus⟩
  rw [List.drop_append_of_le_length hk]
  rw [firstIdx_append pat hne (D.drop k) C j0 hj0]
  simpa using hplus

theorem sectionStartMarker_ne_nil (n : Nat) : sectionStartMarker n ≠ [] := by
  rw [sectionStartMarker]
  rw [show SECTION_START_MARKER = '-' :: str "--SECTION_START_" from rfl]
  simp

theorem sectionEndMarker_ne_nil (n : Nat) : sectionEndMarker n ≠ [] := by
  rw [sectionEndMarker]
  rw [show SECTION_END_MARKER = '-' :: str "--SECTION_END_" from rfl]
  simp

/-- Claim C2: whenever the raw text contains the start marker for a section
(first occurrence at `i`) and the end marker after it (first occurrence at
`j`), the extraction result is computed from exactly the substring strictly
between that first delimiter pair (`jsSubstring raw (i + start.length) j`,
then the per-section heading repair and trimming of C3); and appending any
continuation `C` — in particular one holding further duplicate delimiter
pairs for the same index — leaves the extraction result unchanged: only the
first pair is used, later duplicates are ignored. -/
theorem extraction_uses_first_delimiter_pair (raw C : List Char) (n i j : Nat)
    (hstart : firstIdx (sectionStartMarker n) raw = some i)
    (hend : firstIdxFrom (sectionEndMarker n) raw
      (i + (sectionStartMarker n).length) = some j) :
    extractSectionContent raw n =
      listTrim (listTrim (stripHeaderFrom n
        (jsSubstring raw (i + (sectionStartMarker n).length) j)))
    ∧ extractSectionContent (raw ++ C) n = extractSectionContent raw n := by
  have hsne := sectionStartMarker_ne_nil n
  have hene := sectionEndMarker_ne_nil n
  constructor
  · simp only [extractSectionContent, hstart, hend]
  · have hilen : i + (sectionStartMarker n).length ≤ raw.length :=
      firstIdx_length_le _ raw i hstart hsne
    have hend2 := hend
    rw [firstIdxFrom] at hend2
    rcases Option.map_eq_some'.mp hend2 with ⟨j0, hj0, hjsum⟩
    have hjlen : j0 + (sectionEndMarker n).length ≤
        (raw.drop (i + (sectionStartMarker n).length)).length :=
      firstIdx_length_le _ _ j0 hj0 hene
    rw [List.length_drop] at hjlen
    have hpos : 0 < (sectionEndMarker n).length := List.length_pos.mpr hene
    have hjraw : j ≤ raw.length := by omega
    have hstartA : firstIdx (sectionStartMarker n) (raw ++ C) = some i :=
      firstIdx_append _ hsne raw C i hstart
    have hendA : firstIdxFrom (sectionEndMarker n) (raw ++ C)
        (i + (sectionStartMarker n).length) = some j :=
      firstIdxFrom_append _ hene raw C _ j hilen hend
    have hsub : jsSubstring (raw ++ C) (i + (sectionStartMarker n).length) j =
        jsSubstring raw (i + (sectionStartMarker n).length) j := by
      rw [jsSubstring, jsSubstring, List.take_append_of_le_length hjraw]
    simp only [extractSectionContent, hstartA, hendA, hstart, hend, hsub]

set_option maxRecDepth 100000 in
theorem extraction_uses_first_delimiter_pair_witness :
    extractSectionContent
        (str "---SECTION_START_1---\n hello \n---SECTION_END_1---" ++
          str "---SECTION_START_1---junk---SECTION_END_1---") 1 = str "hello"
    ∧ extractSectionContent
        (str "---SECTION_START_1---\n hello \n---SECTION_END_1---") 1 = str "hello" := by
  have h := (extraction_uses_first_delimiter_pair
    (str "---SECTION_START_1---\n hello \n---SECTION_END_1---")
    (str "---SECTION_START_1---junk---SECTION_END_1---") 1 0 30
    (by decide) (by decide)).2
  exact ⟨h.trans (by decide), by decide⟩

theorem stripGo_of_noMatch (n : Nat) :
    ∀ (s : List Char) (b : Bool), noHeaderMatchGo n b s = true →
      stripGo n b s = s := by
  intro s
  induction s with
  | nil => intro b _; rfl
  | cons c t ih =>
    intro b h
    rw [noHeaderMatchGo] at h
    rw [stripGo]
    by_cases hb : b
    · rw [hb] at h ⊢
      simp only [if_true]
      cases hm : matchHeaderLen n (c :: t) with
      | some m =>
        rw [hm] at h
        simp at h
      | none =>
        rw [hm] at h
        simp only [if_true] at h
        rw [ih _ h]
    · rw [Bool.not_eq_true] at hb
      rw [hb] at h ⊢
      simp only [Bool.false_eq_true, if_false] at h ⊢
      rw [ih _ h]

set_option maxRecDepth 100000 in
/-- Claim C3, counterexample: for section 2, the content between the
delimiters is `"A\n# 2. dup\nB"`; it has no leading duplicate heading line
(it starts with `A`), so by the claim it should be returned unchanged after
trimming — but extraction returns `"A\nB"`: the multiline header regex of
analysisPostProcessor.ts:127-131 removes the first matching heading line at
any line start, not only a leading one. -/
theorem extraction_strips_nonleading_heading_cex :
    extractSectionContent
        (str "---SECTION_START_2---A\n# 2. dup\nB---SECTION_END_2---") 2 = str "A\nB"
    ∧ jsSubstring
        (str "---SECTION_START_2---A\n# 2. dup\nB---SECTION_END_2---") 21 33 =
      str "A\n# 2. dup\nB"
    ∧ str "A\nB" ≠ listTrim (str "A\n# 2. dup\nB") := by
  exact ⟨by decide, by decide, by decide⟩

/-- Claim C3, amended: for every raw text with a well-formed delimiter pair
for a section, the extracted result equals the text between the markers
with the first match of the line-start-anchored duplicate-heading pattern —
wherever that match occurs in the content, not only in leading position —
removed, and surrounding whitespace trimmed; content in which the pattern
matches at no line start is returned unchanged up to trimming. -/
theorem extraction_header_strip_amended (raw : List Char) (n i j : Nat)
    (hstart : firstIdx (sectionStartMarker n) raw = some i)
    (hend : firstIdxFrom (sectionEndMarker n) raw
      (i + (sectionStartMarker n).length) = some j) :
    extractSectionContent raw n =
      listTrim (stripHeaderFrom n
        (jsSubstring raw (i + (sectionStartMarker n).length) j))
    ∧ (noHeaderMatch n (jsSubstring raw (i + (sectionStartMarker n).length) j) = true →
        extractSectionContent raw n =
          listTrim (jsSubstring raw (i + (sectionStartMarker n).length) j)) := by
  have hmain : extractSectionContent raw n =
      listTrim (listTrim (stripHeaderFrom n
        (jsSubstring raw (i + (sectionStartMarker n).length) j))) := by
    simp only [extractSectionContent, hstart, hend]
  constructor
  · rw [hmain, listTrim_idem]
  · intro hno
    rw [hmain, listTrim_idem, stripHeaderFrom, stripGo_of_noMatch n _ _ hno]

set_option maxRecDepth 100000 in
theorem extraction_header_strip_amended_witness :
    extractSectionContent
        (str "---SECTION_START_4---\nno heading here\n---SECTION_END_4---") 4 =
      listTrim (str "\nno heading here\n")
    ∧ extractSectionContent
        (str "---SECTION_START_4---\nno heading here\n---SECTION_END_4---") 4 =
      str "no heading here" := by
  have h := (extraction_header_strip_amended
    (str "---SECTION_START_4---\nno heading here\n---SECTION_END_4---") 4 0 38
    (by decide) (by decide)).2 (by decide)
  refine ⟨h.trans (by decide), h.trans (by decide)⟩
